import Mathlib

/-!
Verification of the manifest data model and resolution algorithm of the
`pore` repository (`src/manifest/mod.rs`), as a shallow embedding in Lean.

Rust `HashMap`/`BTreeMap` values built by `collect()` are embedded as
association lists with an insert-by-key operation that overwrites any
previous entry for the same key (Rust's `FromIterator` for maps inserts
each pair in order, so a later duplicate key wins).  Rust `Result<T, Error>`
becomes `Except Error T`, with the `anyhow` error messages of the source
mirrored as constructors of an `Error` inductive; `with_context` on an
error becomes a wrapping constructor.
-/

set_option autoImplicit false
set_option linter.unusedVariables false

namespace Pore

/-- Decidable equality for `Except`, so that concrete resolution results can
be checked by `decide`. -/
instance {ε α : Type} [DecidableEq ε] [DecidableEq α] :
    DecidableEq (Except ε α) := fun x y =>
  match x, y with
  | .ok a, .ok b =>
    if h : a = b then .isTrue (by rw [h])
    else .isFalse (fun hc => h (Except.ok.inj hc))
  | .error a, .error b =>
    if h : a = b then .isTrue (by rw [h])
    else .isFalse (fun hc => h (Except.error.inj hc))
  | .ok _, .error _ => .isFalse (fun hc => Except.noConfusion hc)
  | .error _, .ok _ => .isFalse (fun hc => Except.noConfusion hc)

/-- Insert-by-key into an association list: removes any existing binding of
the key and appends the new one, mirroring map-insert semantics of
`HashMap`/`BTreeMap` (last write wins). -/
def insertAssoc {β : Type} (k : String) (v : β) (l : List (String × β)) :
    List (String × β) :=
  l.filter (fun p => p.1 ≠ k) ++ [(k, v)]

/-- Lookup by key in an association list (`HashMap::get` / `BTreeMap::get`). -/
def lookupAssoc {β : Type} (k : String) : List (String × β) → Option β
  | [] => none
  | (k2, v) :: rest => if k2 = k then some v else lookupAssoc k rest

/-- Rust `struct RemoteSchema`: the decoded `<remote>` element. -/
structure RemoteSchema : Type where
  name : String
  «alias» : Option String
  fetch : String
  push_url : Option String
  review : Option String
  revision : Option String
  deriving DecidableEq, Repr

/-- Rust `struct DefaultSchema`: the decoded `<default>` element. -/
structure DefaultSchema : Type where
  remote : Option String
  revision : Option String
  dest_branch : Option String
  upstream : Option String
  sync_j : Option Nat
  sync_c : Option Bool
  deriving DecidableEq, Repr

/-- Rust `struct CopyFileSchema`: the decoded `<copyfile>` element. -/
structure CopyFileSchema : Type where
  src : String
  dest : String
  deriving DecidableEq, Repr

/-- Rust `struct LinkFileSchema`: the decoded `<linkfile>` element. -/
structure LinkFileSchema : Type where
  src : String
  dest : String
  deriving DecidableEq, Repr

/-- Rust `struct AnnotationSchema`: a decoded name/value child element of a
project. -/
structure AnnotationSchema : Type where
  name : String
  value : String
  deriving DecidableEq, Repr

/-- Rust `struct IncludeSchema`: the decoded `<include>` element. -/
structure IncludeSchema : Type where
  name : String
  deriving DecidableEq, Repr

/-- Rust `struct ProjectSchema`: the decoded `<project>` element. -/
structure ProjectSchema : Type where
  name : String
  path : Option String
  remote : Option String
  revision : Option String
  dest_branch : Option String
  groups : Option (List String)
  sync_c : Option Bool
  sync_s : Option Bool
  upstream : Option String
  clone_depth : Option Nat
  force_path : Option Bool
  annotations : Option (List AnnotationSchema)
  copy_files : Option (List CopyFileSchema)
  link_files : Option (List LinkFileSchema)
  deriving DecidableEq, Repr

/-- Rust `struct ManifestSchema`: the decoded manifest document. -/
structure ManifestSchema : Type where
  project : List ProjectSchema
  remote : List RemoteSchema
  default : Option DefaultSchema
  «include» : Option (List IncludeSchema)
  deriving DecidableEq, Repr

/-- The error kinds produced by the resolution routines, one constructor per
`format_err!` site in `src/manifest/mod.rs`; `MissingDestBranch` is the
`with_context` wrapper added by `find_dest_branch`. -/
inductive Error : Type
  /-- Mirrors "project {} has no remote". -/
  | MissingRemote (project : String)
  /-- Mirrors "project {} has no revision". -/
  | MissingRevision (project : String)
  /-- Mirrors "project {} has no dest_branch or revision", wrapping the
  revision resolution error. -/
  | MissingDestBranch (project : String) (cause : Error)
  /-- Mirrors "remote {} missing in manifest". -/
  | UnknownRemoteReference (name : String)
  /-- Mirrors the unresolved-configured-remote error naming the canonicalized
  URL. -/
  | UnresolvedRemoteUrl (url : String)
  deriving DecidableEq, Repr

/-- Rust `struct Remote` of the model. -/
structure Remote : Type where
  name : String
  «alias» : Option String
  fetch : String
  push_url : Option String
  review : Option String
  revision : Option String
  deriving DecidableEq, Repr

/-- Rust `struct Default` of the model. -/
structure Default : Type where
  remote : Option String
  revision : Option String
  dest_branch : Option String
  upstream : Option String
  sync_j : Option Nat
  sync_c : Option Bool
  deriving DecidableEq, Repr

/-- Rust `enum FileOperation`. -/
inductive FileOperation : Type
  | LinkFile (src : String) (dst : String)
  | CopyFile (src : String) (dst : String)
  deriving DecidableEq, Repr

/-- Rust `FileOperation::src`. -/
def FileOperation.src : FileOperation → String
  | .LinkFile src _ => src
  | .CopyFile src _ => src

/-- Rust `FileOperation::dst`. -/
def FileOperation.dst : FileOperation → String
  | .LinkFile _ dst => dst
  | .CopyFile _ dst => dst

/-- Rust `struct Project` of the model. -/
structure Project : Type where
  name : String
  path : Option String
  remote : Option String
  revision : Option String
  dest_branch : Option String
  groups : Option (List String)
  sync_c : Option Bool
  clone_depth : Option Nat
  file_operations : List FileOperation
  annotations : List (String × String)
  deriving DecidableEq, Repr

/-- Rust `struct ManifestServer`. -/
structure ManifestServer : Type where
  url : String
  deriving DecidableEq, Repr

/-- Rust `struct SuperProject`. -/
structure SuperProject : Type where
  name : String
  remote : String
  deriving DecidableEq, Repr

/-- Rust `struct ContactInfo`. -/
structure ContactInfo : Type where
  bug_url : String
  deriving DecidableEq, Repr

/-- Rust `struct RepoHooks`. -/
structure RepoHooks : Type where
  in_project : Option String
  enabled_list : Option String
  deriving DecidableEq, Repr

/-- Rust `struct Manifest`: the aggregate root.  `remotes` embeds the
`HashMap<String, Remote>` and `projects` the `BTreeMap<PathBuf, Project>`,
both as insert-by-key association lists (path keys as strings). -/
structure Manifest : Type where
  remotes : List (String × Remote)
  projects : List (String × Project)
  default : Option Default
  manifest_server : Option ManifestServer
  superproject : Option SuperProject
  contactinfo : Option ContactInfo
  repo_hooks : Option RepoHooks
  deriving DecidableEq, Repr

/-- Rust `impl From<RemoteSchema> for Remote`: field-by-field conversion. -/
def Remote.fromSchema (remote : RemoteSchema) : Remote where
  name := remote.name
  «alias» := remote.alias
  fetch := remote.fetch
  push_url := remote.push_url
  review := remote.review
  revision := remote.revision

/-- Rust `impl From<DefaultSchema> for Default`: field-by-field conversion. -/
def Default.fromSchema (default : DefaultSchema) : Default where
  remote := default.remote
  revision := default.revision
  dest_branch := default.dest_branch
  upstream := default.upstream
  sync_j := default.sync_j
  sync_c := default.sync_c

/-- Rust `impl From<CopyFileSchema> for FileOperation`. -/
def FileOperation.fromCopyFileSchema (schema : CopyFileSchema) : FileOperation :=
  .CopyFile schema.src schema.dest

/-- Rust `impl From<LinkFileSchema> for FileOperation`. -/
def FileOperation.fromLinkFileSchema (schema : LinkFileSchema) : FileOperation :=
  .LinkFile schema.src schema.dest

/-- Rust `impl From<ProjectSchema> for Project`: copy-files then link-files are
chained into `file_operations`; the name/value children are collected into
the `annotations` map (duplicate names: last write wins, `HashMap`
collect). -/
def Project.fromSchema (schema : ProjectSchema) : Project where
  name := schema.name
  path := schema.path
  remote := schema.remote
  revision := schema.revision
  dest_branch := schema.dest_branch
  groups := schema.groups
  sync_c := schema.sync_c
  clone_depth := schema.clone_depth
  file_operations :=
    (schema.copy_files.getD []).map FileOperation.fromCopyFileSchema ++
      (schema.link_files.getD []).map FileOperation.fromLinkFileSchema
  annotations :=
    (schema.annotations.getD []).foldl
      (fun m a => insertAssoc a.name a.value m) []

/-- Rust `Manifest::construct_from_schema`: key each remote by its name and each
project by `path.unwrap_or(name)`, later duplicates overwriting earlier
ones; the auxiliary blocks are always `None`.  The Rust function returns
`anyhow::Result` but its body is a single `Ok(..)`. -/
def Manifest.construct_from_schema (schema : ManifestSchema)
    (manifest_root : String) : Except Error Manifest :=
  .ok
    { remotes :=
        schema.remote.foldl
          (fun m remote => insertAssoc remote.name (Remote.fromSchema remote) m) []
      projects :=
        schema.project.foldl
          (fun m project_schema =>
            insertAssoc (project_schema.path.getD project_schema.name)
              (Project.fromSchema project_schema) m) []
      default := schema.default.map Default.fromSchema
      manifest_server := none
      superproject := none
      contactinfo := none
      repo_hooks := none }

/-- Rust `Project::path()`: the effective display path, `path.unwrap_or(name)`.
Named `path'` because the `path` field occupies the Rust method's name. -/
def Project.path' (self : Project) : String :=
  self.path.getD self.name

/-- Rust `Project::find_remote`: project-level remote, else the manifest
default's remote, else the "project {} has no remote" error. -/
def Project.find_remote (self : Project) (manifest : Manifest) :
    Except Error String :=
  match self.remote.orElse fun _ => manifest.default.bind (·.remote) with
  | some remote_name => .ok remote_name
  | none => .error (.MissingRemote self.name)

/-- Rust `Project::find_revision`: project-level revision, else the manifest
default's revision, else the revision of the remote found by `find_remote`
(propagating its failure), else the "project {} has no revision" error. -/
def Project.find_revision (self : Project) (manifest : Manifest) :
    Except Error String :=
  match self.revision with
  | some revision => .ok revision
  | none =>
    match manifest.default.bind (·.revision) with
    | some revision => .ok revision
    | none => do
      let remote_name ← self.find_remote manifest
      match (lookupAssoc remote_name manifest.remotes).bind (·.revision) with
      | some revision => .ok revision
      | none => .error (.MissingRevision self.name)

/-- Rust `Project::find_dest_branch`: the project's `dest_branch` if set, else
`find_revision`, wrapping a revision failure in the "project {} has no
dest_branch or revision" context. -/
def Project.find_dest_branch (self : Project) (manifest : Manifest) :
    Except Error String :=
  match self.dest_branch with
  | some dest_branch => .ok dest_branch
  | none =>
    match self.find_revision manifest with
    | .ok revision => .ok revision
    | .error e => .error (.MissingDestBranch self.name e)

/-- Modelled from the spec: the "local configuration input" collaborator
(`crate::Config`, not under `src/`) supplies "a list of configured remotes,
each with a canonical `name`, a primary `url`, and an optional list of
alias URLs (`other_urls`)". -/
structure ConfigRemote : Type where
  name : String
  url : String
  other_urls : Option (List String)
  deriving DecidableEq, Repr

/-- Modelled from the spec: `crate::Config` as consumed by
`resolve_project_remote` — only its list of configured remotes. -/
structure Config : Type where
  remotes : List ConfigRemote
  deriving DecidableEq, Repr

/-- Modelled from the spec: the "tree identity input" collaborator
(`crate::tree::TreeConfig`, not under `src/`) supplies "a single `remote`
name representing where this checkout's manifest itself came from". -/
structure TreeConfig : Type where
  remote : String
  deriving DecidableEq, Repr

/-- Rust `canonicalize_url`: `url.trim_end_matches('/')`. -/
def canonicalize_url (url : String) : String :=
  ⟨(url.data.reverse.dropWhile (fun c => c = '/')).reverse⟩

/-- The matching loop of `Manifest::resolve_project_remote`: scan the
configured remotes in order, returning the name of the first whose
canonicalized primary URL — or, failing that, one of whose canonicalized
alias URLs — equals `url`. -/
def findConfigRemote (url : String) : List ConfigRemote → Option String
  | [] => none
  | remote :: rest =>
    if url = canonicalize_url remote.url then some remote.name
    else if (remote.other_urls.getD []).any
        (fun other_url => url = canonicalize_url other_url) then
      some remote.name
    else findConfigRemote url rest

/-- Rust `Manifest::resolve_project_remote`: resolve the project's remote name,
look it up in the manifest (failing with "remote {} missing in manifest" if
absent), honour the `".."` sentinel by returning the tree's own remote, and
otherwise match the canonicalized fetch URL against the configured
remotes. -/
def Manifest.resolve_project_remote (self : Manifest) (config : Config)
    (tree_config : TreeConfig) (project : Project) :
    Except Error (String × Remote) := do
  let project_remote_name ← project.find_remote self
  match lookupAssoc project_remote_name self.remotes with
  | none => .error (.UnknownRemoteReference project_remote_name)
  | some project_remote =>
    if project_remote.fetch = ".." then
      .ok (tree_config.remote, project_remote)
    else
      let url := canonicalize_url project_remote.fetch
      match findConfigRemote url config.remotes with
      | some name => .ok (name, project_remote)
      | none => .error (.UnresolvedRemoteUrl url)

/-- Rust `struct ExtendProject`. -/
structure ExtendProject : Type where
  name : String
  path : Option String
  groups : Option (List String)
  revision : Option String
  remote : Option String
  deriving DecidableEq, Repr

/-- The body of `ExtendProject::extend` after the path filter: clone the
project, append the extension's groups to the project's (absent groups
count as empty), and replace revision and remote wholesale when the
extension sets them. -/
def ExtendProject.applyExtend (self : ExtendProject) (project : Project) :
    Project :=
  let extended := project
  let extended :=
    match self.groups with
    | some groups => { extended with
        groups := some (project.groups.getD [] ++ groups) }
    | none => extended
  let extended :=
    match self.revision with
    | some revision => { extended with revision := some revision }
    | none => extended
  match self.remote with
  | some remote => { extended with remote := some remote }
  | none => extended

/-- Rust `ExtendProject::extend`: if the extension carries a path filter that
differs from the project's effective path, return the project unchanged;
otherwise apply the extension. -/
def ExtendProject.extend (self : ExtendProject) (project : Project) :
    Project :=
  match self.path with
  | some path => if path ≠ project.path' then project else self.applyExtend project
  | none => self.applyExtend project

/-! ### Example fixtures used by the witness theorems -/

/-- A remote carrying its own default revision. -/
def remoteEx : Remote :=
  { name := "aosp", «alias» := none, fetch := "ssh://x/y", push_url := none,
    review := none, revision := some ("remote-rev") }

/-- A bare project: no remote, revision, or dest-branch of its own. -/
def projectEx : Project :=
  { name := "p", path := some ("/r/p"), remote := none, revision := none,
    dest_branch := none, groups := none, sync_c := none, clone_depth := none,
    file_operations := [], annotations := [] }

/-- A manifest default naming `remoteEx` but carrying no revision. -/
def defaultEx : Default :=
  { remote := some ("aosp"), revision := none, dest_branch := none,
    upstream := none, sync_j := none, sync_c := none }

/-- One remote, one project, a default with a remote but no revision. -/
def manifestEx : Manifest :=
  { remotes := [("aosp", remoteEx)], projects := [("/r/p", projectEx)],
    default := some defaultEx, manifest_server := none, superproject := none,
    contactinfo := none, repo_hooks := none }

/-- The tree's own remote identity. -/
def treeEx : TreeConfig := { remote := "tree-remote" }

/-- An empty configured-remote list. -/
def configEmpty : Config := { remotes := [] }

/-- A manifest default that only names a remote. -/
def defaultNaming (r : String) : Default :=
  { remote := some r, revision := none, dest_branch := none,
    upstream := none, sync_j := none, sync_c := none }

/-- A remote whose fetch URL is the `".."` sentinel. -/
def remoteDotDot : Remote :=
  { name := "origin", «alias» := none, fetch := "..", push_url := none,
    review := none, revision := none }

/-- A manifest whose default points at the `".."` remote. -/
def manifestDotDot : Manifest :=
  { remotes := [("origin", remoteDotDot)], projects := [("/r/p", projectEx)],
    default := some (defaultNaming ("origin")),
    manifest_server := none, superproject := none, contactinfo := none,
    repo_hooks := none }

/-- A manifest whose default names a remote that the manifest does not
define. -/
def manifestGhost : Manifest :=
  { remotes := [], projects := [("/r/p", projectEx)],
    default := some (defaultNaming ("ghost")),
    manifest_server := none, superproject := none, contactinfo := none,
    repo_hooks := none }

/-- A remote whose fetch URL carries a trailing slash. -/
def remoteSlash : Remote :=
  { name := "up", «alias» := none, fetch := "https://host/repo/",
    push_url := none, review := none, revision := none }

/-- A manifest whose default points at the trailing-slash remote. -/
def manifestSlash : Manifest :=
  { remotes := [("up", remoteSlash)], projects := [("/r/p", projectEx)],
    default := some (defaultNaming ("up")),
    manifest_server := none, superproject := none, contactinfo := none,
    repo_hooks := none }

/-- A configured remote whose URL has no trailing slash. -/
def hostConfigRemote : ConfigRemote :=
  { name := "host-remote", url := "https://host/repo", other_urls := none }

/-- A configuration holding only `hostConfigRemote`. -/
def configHost : Config := { remotes := [hostConfigRemote] }

/-- A remote whose fetch URL is `"../"` — almost, but not exactly, the
sentinel. -/
def remoteDotDotSlash : Remote :=
  { name := "up2", «alias» := none, fetch := "../", push_url := none,
    review := none, revision := none }

/-- A manifest whose default points at the `"../"` remote. -/
def manifestDotDotSlash : Manifest :=
  { remotes := [("up2", remoteDotDotSlash)], projects := [("/r/p", projectEx)],
    default := some (defaultNaming ("up2")),
    manifest_server := none, superproject := none, contactinfo := none,
    repo_hooks := none }

/-- A configured remote whose URL canonicalizes to `".."`. -/
def configDotDot : Config :=
  { remotes := [{ name := "dotdot-remote", url := "..", other_urls := none }] }

/-- A project schema record with only a name and a path. -/
def bareProjectSchema (name : String) (path : Option String) : ProjectSchema :=
  { name := name, path := path, remote := none, revision := none,
    dest_branch := none, groups := none, sync_c := none, sync_s := none,
    upstream := none, clone_depth := none, force_path := none,
    annotations := none, copy_files := none, link_files := none }

/-- First of two project schema records sharing the storage key "dup". -/
def projectSchemaFirst : ProjectSchema := bareProjectSchema ("first") (some ("dup"))

/-- Second of two project schema records sharing the storage key "dup". -/
def projectSchemaSecond : ProjectSchema :=
  bareProjectSchema ("second") (some ("dup"))

/-- A schema document whose two projects collide on the "dup" key. -/
def schemaDup : ManifestSchema :=
  { project := [projectSchemaFirst, projectSchemaSecond], remote := [],
    default := none, «include» := none }

/-- A project carrying groups `["a", "b"]`. -/
def projectGroupsAB : Project :=
  { name := "p2", path := some ("/r/p2"), remote := none, revision := none,
    dest_branch := none, groups := some ["a", "b"], sync_c := none,
    clone_depth := none, file_operations := [], annotations := [] }

/-- An extension carrying groups `["b", "c"]` and no path filter. -/
def extendGroupsBC : ExtendProject :=
  { name := "p2", path := none, groups := some ["b", "c"], revision := none,
    remote := none }

/-- A groupless extension replacing only the revision. -/
def extendRevOnly : ExtendProject :=
  { name := "p", path := none, groups := none, revision := some ("r9"),
    remote := none }

/-- A groupless extension whose path filter matches no fixture project. -/
def extendOtherPath : ExtendProject :=
  { name := "p", path := some ("elsewhere"), groups := none,
    revision := some ("r9"), remote := none }

/-! ### Claims -/

/-- C6: `find_remote` returns the project's remote when set, else the
manifest default's remote when set, else fails with `MissingRemote` naming
the project — a strict two-level fallback. -/
theorem find_remote_two_level_fallback (p : Project) (m : Manifest) :
    (∀ r, p.remote = some r → p.find_remote m = .ok r) ∧
    (p.remote = none → ∀ d r, m.default = some d → d.remote = some r →
      p.find_remote m = .ok r) ∧
    (p.remote = none → m.default.bind (·.remote) = none →
      p.find_remote m = .error (.MissingRemote p.name)) := by
  refine ⟨fun r hr => ?_, fun hp d r hd hr => ?_, fun hp hd => ?_⟩
  · simp [Project.find_remote, hr, Option.orElse]
  · simp [Project.find_remote, hp, hd, hr, Option.orElse]
  · simp [Project.find_remote, hp, hd, Option.orElse]

/-- C6 witness: on the example manifest the bare project inherits the
default's remote. -/
theorem find_remote_two_level_fallback_witness :
    projectEx.find_remote manifestEx = .ok ("aosp") :=
  (find_remote_two_level_fallback projectEx manifestEx).2.1 rfl defaultEx
    ("aosp") rfl rfl

/-- C1: `find_revision` returns the project's revision when set; else the
manifest default's revision when set; else, after resolving the remote name
via `find_remote` (whose failure short-circuits), the revision of the
looked-up remote when it has one; otherwise it fails. -/
theorem find_revision_priority_chain (p : Project) (m : Manifest) :
    (∀ r, p.revision = some r → p.find_revision m = .ok r) ∧
    (p.revision = none → ∀ r, m.default.bind (·.revision) = some r →
      p.find_revision m = .ok r) ∧
    (p.revision = none → m.default.bind (·.revision) = none →
      ∀ e, p.find_remote m = .error e → p.find_revision m = .error e) ∧
    (p.revision = none → m.default.bind (·.revision) = none →
      ∀ rn rem rev, p.find_remote m = .ok rn →
        lookupAssoc rn m.remotes = some rem → rem.revision = some rev →
        p.find_revision m = .ok rev) ∧
    (p.revision = none → m.default.bind (·.revision) = none →
      ∀ rn, p.find_remote m = .ok rn →
        (lookupAssoc rn m.remotes).bind (·.revision) = none →
        p.find_revision m = .error (.MissingRevision p.name)) := by
  refine ⟨fun r hr => ?_, fun hp r hd => ?_, fun hp hd e he => ?_,
    fun hp hd rn rem rev hrn hrem hrev => ?_, fun hp hd rn hrn hnone => ?_⟩
  · simp [Project.find_revision, hr]
  · simp [Project.find_revision, hp, hd]
  · simp [Project.find_revision, hp, hd, he, bind, Except.bind]
  · simp [Project.find_revision, hp, hd, hrn, hrem, hrev, bind, Except.bind]
  · simp [Project.find_revision, hp, hd, hrn, hnone, bind, Except.bind]

/-- C1 witness: the bare project on the example manifest falls through to
the remote's own revision. -/
theorem find_revision_priority_chain_witness :
    projectEx.find_revision manifestEx = .ok ("remote-rev") :=
  (find_revision_priority_chain projectEx manifestEx).2.2.2.1 rfl rfl ("aosp")
    remoteEx ("remote-rev") rfl rfl rfl

/-- C2: `find_dest_branch` returns the project's `dest_branch` when set;
when it is not set, it succeeds exactly when `find_revision` succeeds and
with the same value (the failure carries `find_revision`'s error wrapped in
the dest-branch context). -/
theorem find_dest_branch_follows_find_revision (p : Project) (m : Manifest) :
    (∀ b, p.dest_branch = some b → p.find_dest_branch m = .ok b) ∧
    (p.dest_branch = none →
      (∀ v, p.find_revision m = .ok v → p.find_dest_branch m = .ok v) ∧
      (∀ e, p.find_revision m = .error e →
        p.find_dest_branch m = .error (.MissingDestBranch p.name e)) ∧
      ((p.find_dest_branch m).isOk ↔ (p.find_revision m).isOk)) := by
  refine ⟨fun b hb => ?_, fun hp => ⟨fun v hv => ?_, fun e he => ?_, ?_⟩⟩
  · simp [Project.find_dest_branch, hb]
  · simp [Project.find_dest_branch, hp, hv]
  · simp [Project.find_dest_branch, hp, he]
  · cases hrev : p.find_revision m with
    | ok v => simp [Project.find_dest_branch, hp, hrev, Except.isOk, Except.toBool]
    | error e => simp [Project.find_dest_branch, hp, hrev, Except.isOk, Except.toBool]

/-- C2 witness: with no explicit dest-branch, the example project's
dest-branch equals its resolved revision. -/
theorem find_dest_branch_follows_find_revision_witness :
    projectEx.find_dest_branch manifestEx = .ok ("remote-rev") :=
  ((find_dest_branch_follows_find_revision projectEx manifestEx).2 rfl).1
    ("remote-rev") rfl

/-- C3: when the project's resolved remote has fetch URL `".."`,
`resolve_project_remote` succeeds with the tree configuration's own remote
name, for every configured-remote list — the list is never consulted. -/
theorem resolve_dotdot_returns_tree_remote (m : Manifest) (config : Config)
    (tree_config : TreeConfig) (p : Project) (rn : String) (rem : Remote)
    (hrn : p.find_remote m = .ok rn)
    (hrem : lookupAssoc rn m.remotes = some rem)
    (hfetch : rem.fetch = "..") :
    m.resolve_project_remote config tree_config p =
      .ok (tree_config.remote, rem) := by
  simp [Manifest.resolve_project_remote, hrn, hrem, hfetch, bind, Except.bind]

/-- C3 witness: the `".."` manifest resolves to the tree's own remote even
with an empty configured-remote list. -/
theorem resolve_dotdot_returns_tree_remote_witness :
    manifestDotDot.resolve_project_remote configEmpty treeEx projectEx =
      .ok ("tree-remote", remoteDotDot) :=
  resolve_dotdot_returns_tree_remote manifestDotDot configEmpty treeEx
    projectEx ("origin") remoteDotDot rfl rfl rfl

/-- C4 counterexample: on a manifest whose default names the absent remote
"ghost", `find_revision` falls through to the remote level and fails with
`MissingRevision` naming the project, not with `UnknownRemoteReference`
naming the remote. -/
theorem find_revision_unknown_remote_counterexample :
    projectEx.find_revision manifestGhost = .error (.MissingRevision ("p")) ∧
    projectEx.find_revision manifestGhost ≠
      .error (.UnknownRemoteReference ("ghost")) := by
  decide

/-- C4 amended: when the named remote is absent from the manifest's remote
mapping, `resolve_project_remote` fails with `UnknownRemoteReference`
naming that remote, while `find_revision` falling through to the remote
level treats the absent remote like a remote without a revision and fails
with `MissingRevision` naming the project. -/
theorem unknown_remote_reference_amended (m : Manifest) (config : Config)
    (tree_config : TreeConfig) (p : Project) (rn : String)
    (hrn : p.find_remote m = .ok rn)
    (habsent : lookupAssoc rn m.remotes = none) :
    m.resolve_project_remote config tree_config p =
      .error (.UnknownRemoteReference rn) ∧
    (p.revision = none → m.default.bind (·.revision) = none →
      p.find_revision m = .error (.MissingRevision p.name)) := by
  constructor
  · simp [Manifest.resolve_project_remote, hrn, habsent, bind, Except.bind]
  · intro hp hd
    simp [Project.find_revision, hp, hd, hrn, habsent, bind, Except.bind]

/-- C4 amended witness: the "ghost" manifest exhibits both error kinds. -/
theorem unknown_remote_reference_amended_witness :
    manifestGhost.resolve_project_remote configEmpty treeEx projectEx =
      .error (.UnknownRemoteReference ("ghost")) ∧
    projectEx.find_revision manifestGhost = .error (.MissingRevision ("p")) := by
  have h := unknown_remote_reference_amended manifestGhost configEmpty treeEx
    projectEx ("ghost") rfl rfl
  exact ⟨h.1, h.2 rfl rfl⟩

/-- C5: URL matching uses canonicalized equality — trailing slashes are
stripped and nothing else is normalized: appending "/" never changes a
canonicalized URL, the two example URLs with and without a trailing slash
are equal, case-differing URLs stay distinct, and
`resolve_project_remote` matches a fetch URL with a trailing slash against
a configured URL without one. -/
theorem canonicalized_url_equality :
    (∀ s : String, canonicalize_url (s ++ "/") = canonicalize_url s) ∧
    canonicalize_url ("https://host/repo/") = canonicalize_url ("https://host/repo") ∧
    canonicalize_url ("https://host/repo") ≠ canonicalize_url ("https://HOST/repo") ∧
    manifestSlash.resolve_project_remote configHost treeEx projectEx =
      .ok ("host-remote", remoteSlash) := by
  refine ⟨fun s => ?_, by decide, by decide, by decide⟩
  have h : (s ++ "/").data = s.data ++ ['/'] := String.data_append s ("/")
  simp [canonicalize_url, h, List.dropWhile]

/-- C5 witness: the first conjunct applied at a concrete URL. -/
theorem canonicalized_url_equality_witness :
    canonicalize_url ("ssh://x/y" ++ "/") = canonicalize_url ("ssh://x/y") :=
  canonicalized_url_equality.1 ("ssh://x/y")

/-- The matching loop of `resolve_project_remote` finds a configured remote
exactly when the probe URL equals some configured remote's canonicalized
primary URL or one of its canonicalized alias URLs. -/
theorem findConfigRemote_isSome_iff (url : String) (l : List ConfigRemote) :
    (findConfigRemote url l).isSome = true ↔
      ∃ r ∈ l, url = canonicalize_url r.url ∨
        ∃ u ∈ r.other_urls.getD [], url = canonicalize_url u := by
  induction l with
  | nil => simp [findConfigRemote]
  | cons r rest ih =>
    by_cases h1 : url = canonicalize_url r.url
    · simp [findConfigRemote, h1]
    · by_cases h2 : (r.other_urls.getD []).any
        (fun u => url = canonicalize_url u)
      · simp only [findConfigRemote, if_neg h1, if_pos h2, Option.isSome_some,
          true_iff]
        rcases List.any_eq_true.mp h2 with ⟨u, hu, hequ⟩
        exact ⟨r, List.mem_cons_self r rest,
          Or.inr ⟨u, hu, of_decide_eq_true hequ⟩⟩
      · have h2' : ∀ u ∈ r.other_urls.getD [], ¬ url = canonicalize_url u := by
          intro u hu hequ
          exact h2 (List.any_eq_true.mpr ⟨u, hu, decide_eq_true hequ⟩)
        simp only [findConfigRemote, if_neg h1, if_neg h2, ih,
          List.mem_cons]
        constructor
        · rintro ⟨r', hr', hmatch⟩
          exact ⟨r', Or.inr hr', hmatch⟩
        · rintro ⟨r', hr' | hr', hmatch⟩
          · subst hr'
            rcases hmatch with hmatch | ⟨u, hu, hequ⟩
            · exact absurd hmatch h1
            · exact absurd hequ (h2' u hu)
          · exact ⟨r', hr', hmatch⟩

/-- C10: a fetch URL of `"../"` is not the `".."` sentinel — it is
canonicalized to `".."` and matched against the configured remotes, so
resolution succeeds exactly when some configured remote's primary or alias
URL canonicalizes to `".."`. -/
theorem fetch_dotdot_slash_not_sentinel (m : Manifest) (config : Config)
    (tree_config : TreeConfig) (p : Project) (rn : String) (rem : Remote)
    (hrn : p.find_remote m = .ok rn)
    (hrem : lookupAssoc rn m.remotes = some rem)
    (hfetch : rem.fetch = "../") :
    canonicalize_url ("../") = ".." ∧
    ((m.resolve_project_remote config tree_config p).isOk = true ↔
      ∃ r ∈ config.remotes, (".." : String) = canonicalize_url r.url ∨
        ∃ u ∈ r.other_urls.getD [], (".." : String) = canonicalize_url u) := by
  have hne : ("../" : String) ≠ ".." := by decide
  have hcanon : canonicalize_url ("../") = ".." := by decide
  refine ⟨hcanon, ?_⟩
  rw [← findConfigRemote_isSome_iff]
  simp only [Manifest.resolve_project_remote, hrn, hrem, hfetch, bind,
    Except.bind, if_neg hne, hcanon]
  cases hfind : findConfigRemote ("..") config.remotes <;>
    simp [Except.isOk, Except.toBool, hfind]

/-- C10 witness: with a configured remote whose URL is `".."`, the `"../"`
fetch URL resolves (through URL matching, not the sentinel). -/
theorem fetch_dotdot_slash_not_sentinel_witness :
    (manifestDotDotSlash.resolve_project_remote configDotDot treeEx
      projectEx).isOk = true :=
  (fetch_dotdot_slash_not_sentinel manifestDotDotSlash configDotDot treeEx
    projectEx ("up2") remoteDotDotSlash rfl rfl rfl).2.mpr
    ⟨{ name := "dotdot-remote", url := "..", other_urls := none },
      by decide, Or.inl (by decide)⟩

/-- C7: when two project schema records compute the same storage key
`path.unwrap_or(name)`, construction succeeds and the project mapping
retains exactly one entry for that key — the last-constructed project. -/
theorem duplicate_path_key_last_wins (s : ManifestSchema) (root : String)
    (p1 p2 : ProjectSchema) (hs : s.project = [p1, p2])
    (hk : p1.path.getD p1.name = p2.path.getD p2.name) :
    ∃ m, Manifest.construct_from_schema s root = .ok m ∧
      m.projects = [(p2.path.getD p2.name, Project.fromSchema p2)] := by
  refine ⟨_, rfl, ?_⟩
  simp [Manifest.construct_from_schema, hs, insertAssoc, hk]

/-- C7 witness: the two "dup"-keyed schema projects collapse to the second
one. -/
theorem duplicate_path_key_last_wins_witness :
    ∃ m, Manifest.construct_from_schema schemaDup ("") = .ok m ∧
      m.projects = [("dup", Project.fromSchema projectSchemaSecond)] :=
  duplicate_path_key_last_wins schemaDup ("") projectSchemaFirst
    projectSchemaSecond rfl rfl

/-- C8: `extend` with a matching path filter (or none) and a groups list
appends the extension's groups to the project's groups (empty when absent)
in order, without deduplication. -/
theorem extend_appends_groups (e : ExtendProject) (p : Project)
    (gs : List String) (hg : e.groups = some gs)
    (hpath : e.path = none ∨ e.path = some p.path') :
    (e.extend p).groups = some (p.groups.getD [] ++ gs) := by
  have happly : (e.applyExtend p).groups = some (p.groups.getD [] ++ gs) := by
    cases hr : e.revision <;> cases hm : e.remote <;>
      simp [ExtendProject.applyExtend, hg, hr, hm]
  rcases hpath with h | h
  · simp [ExtendProject.extend, h, happly]
  · simp [ExtendProject.extend, h, happly]

/-- C8 witness: groups `["a","b"]` extended with `["b","c"]` yield
`["a","b","b","c"]`, duplicates preserved. -/
theorem extend_appends_groups_witness :
    (extendGroupsBC.extend projectGroupsAB).groups =
      some ["a", "b", "b", "c"] :=
  (extend_appends_groups extendGroupsBC projectGroupsAB ["b", "c"] rfl
    (Or.inl rfl)).trans rfl

/-- C9: an extension without groups is idempotent, and an extension whose
path filter differs from the project's effective path returns the project
unchanged (structural equality, file operations included). -/
theorem extend_groupless_idempotent_and_nonmatching_identity
    (e : ExtendProject) (p : Project) :
    (e.groups = none → e.extend (e.extend p) = e.extend p) ∧
    (∀ q, e.path = some q → q ≠ p.path' → e.extend p = p) := by
  constructor
  · intro hg
    have hidem : e.applyExtend (e.applyExtend p) = e.applyExtend p := by
      cases hr : e.revision <;> cases hm : e.remote <;>
        simp [ExtendProject.applyExtend, hg, hr, hm]
    have hpath : (e.applyExtend p).path' = p.path' := by
      cases hr : e.revision <;> cases hm : e.remote <;>
        simp [ExtendProject.applyExtend, Project.path', hg, hr, hm]
    cases hp : e.path with
    | none => simp [ExtendProject.extend, hp, hidem]
    | some q =>
      by_cases hq : q = p.path'
      · simp [ExtendProject.extend, hp, hq, hpath, hidem]
      · simp [ExtendProject.extend, hp, hq]
  · intro q hq hne
    simp [ExtendProject.extend, hq, hne]

/-- C9 witness: the revision-only extension is idempotent on the example
project, and the non-matching-path extension leaves it untouched. -/
theorem extend_groupless_idempotent_and_nonmatching_identity_witness :
    extendRevOnly.extend (extendRevOnly.extend projectEx) =
      extendRevOnly.extend projectEx ∧
    extendOtherPath.extend projectEx = projectEx :=
  ⟨(extend_groupless_idempotent_and_nonmatching_identity extendRevOnly
      projectEx).1 rfl,
    (extend_groupless_idempotent_and_nonmatching_identity extendOtherPath
      projectEx).2 ("elsewhere") rfl (by decide)⟩

end Pore
